import Mathlib

/-!
Verification of the SRv6 automation utilities (srv6_automation package):
a shallow embedding of `srv6_utils.py` (validators, placeholder test
runner, and the line-oriented SRv6 configuration parser) together with
the older duplicate implementations in `core.py`, over `List Char`
strings.  Python's `ipaddress` standard-library parsing (the platform's
canonical address parser that the validators defer to) is modelled from
its CPython 3.11 source.

Note on the parser source: the committed `prefix`-line block of
`parse_srv6_config` is an IndentationError (the statements following the
elided "inline behavior/flags parsing" placeholder comment are indented
two columns too deep); the embedding uses the unique de-indentation that
parses, i.e. all of them inside the `if len(tokens) >= 2` branch.  The
elided inline-modifier parsing itself is NOT modelled as present: the
committed code appends the seeded entry and applies no inline modifier,
and the embedding does the same.
-/

/-- Convert a string literal to the `List Char` the embedding works over. -/
def chars (s : String) : List Char := s.toList

/-- Python `str` whitespace for `strip`/`split` (ASCII subset). -/
def pyIsSpace (c : Char) : Bool :=
  c = ' ' || c = '\t' || c = '\n' || c = '\r' || c = '\x0b' || c = '\x0c'

/-- ASCII decimal digit (CPython's octet/prefix-length parsers require
`isascii() and isdigit()`, i.e. exactly these). -/
def isAsciiDigit (c : Char) : Bool := c.isDigit

/-- ASCII letter, as used by `str.isalpha` on the ASCII inputs at hand. -/
def isAsciiAlpha (c : Char) : Bool := c.isAlpha

/-- ASCII hexadecimal digit (CPython `_HEX_DIGITS`). -/
def isAsciiHex (c : Char) : Bool :=
  isAsciiDigit c || ('a' ≤ c && c ≤ 'f') || ('A' ≤ c && c ≤ 'F')

/-- ASCII lowercasing of one character (Python `str.lower` on ASCII). -/
def lowerCh (c : Char) : Char :=
  if 'A' ≤ c && c ≤ 'Z' then Char.ofNat (c.toNat + 32) else c

def lowerStr (l : List Char) : List Char := l.map lowerCh

/-- Python `str.lstrip()`. -/
def pyLstrip (l : List Char) : List Char := l.dropWhile pyIsSpace

/-- Python `str.rstrip()`. -/
def pyRstrip (l : List Char) : List Char :=
  (l.reverse.dropWhile pyIsSpace).reverse

/-- Python `str.strip()`. -/
def pyStrip (l : List Char) : List Char := pyRstrip (pyLstrip l)

/-- Python `str.split(sep)` for a one-character separator: keeps empty
pieces, `"" → [""]`. -/
def splitOnChar (sep : Char) : List Char → List (List Char)
  | [] => [[]]
  | c :: cs =>
    if c = sep then [] :: splitOnChar sep cs
    else
      match splitOnChar sep cs with
      | [] => [[c]]
      | t :: ts => (c :: t) :: ts

/-- Worker for Python `str.split()`: `cur` is the reversed current
token. -/
def wsSplitGo (cur : List Char) : List Char → List (List Char)
  | [] => if cur.isEmpty then [] else [cur.reverse]
  | c :: cs =>
    if pyIsSpace c then
      if cur.isEmpty then wsSplitGo [] cs else cur.reverse :: wsSplitGo [] cs
    else wsSplitGo (c :: cur) cs

/-- Python `str.split()` (no argument): split on whitespace runs, no
empty pieces. -/
def wsSplit (l : List Char) : List (List Char) := wsSplitGo [] l

/-- Python `str.partition(sep)` for a one-character separator, returning
(head, tail-after-first-sep); tail is `[]` when sep is absent, exactly as
Python returns `""`. -/
def pyPartition (sep : Char) (l : List Char) : List Char × List Char :=
  (l.takeWhile (fun c => c ≠ sep), (l.dropWhile (fun c => c ≠ sep)).tail)

/-- Python `str.isdigit()` restricted to ASCII (nonempty, all digits). -/
def pyStrIsdigit (l : List Char) : Bool := !l.isEmpty && l.all isAsciiDigit

/-- Python `str.isalpha()` restricted to ASCII (nonempty, all letters). -/
def pyStrIsalpha (l : List Char) : Bool := !l.isEmpty && l.all isAsciiAlpha

/-- Decimal value of an all-digit string (Python `int(s)` on digits). -/
def natOfDigits (l : List Char) : Nat :=
  l.foldl (fun a c => a * 10 + (c.toNat - 48)) 0

/-- Hexadecimal digit value. -/
def hexDigitVal (c : Char) : Nat :=
  if isAsciiDigit c then c.toNat - 48
  else if 'a' ≤ c && c ≤ 'f' then c.toNat - 87
  else c.toNat - 55

/-- Value of a hex string (Python `int(s, 16)` on hex digits). -/
def hexValue (l : List Char) : Nat :=
  l.foldl (fun a c => a * 16 + hexDigitVal c) 0

/-- One hex digit as a lowercase character (CPython `'%x'` formatting). -/
def hexDigitChar (n : Nat) : Char :=
  if n < 10 then Char.ofNat (48 + n) else Char.ofNat (87 + n)

/-- `'%x' % n` for `n < 0x10000`: minimal lowercase hex, `"0"` for 0. -/
def natToHex16 (n : Nat) : List Char :=
  let ds := [hexDigitChar (n / 4096 % 16), hexDigitChar (n / 256 % 16),
             hexDigitChar (n / 16 % 16), hexDigitChar (n % 16)]
  match ds.dropWhile (fun c => c = '0') with
  | [] => ['0']
  | l => l

/-! ## Model of CPython 3.11 `ipaddress` string parsing

Translated from `/usr/local/lib/python3.11/ipaddress.py`.  Every raise
becomes `none`; all failure modes collapse to the same `none`, so checks
performed in sequence in Python may be modelled as nested guards. -/

/-- `IPv4Address._parse_octet`: nonempty, ASCII digits, at most 3 chars,
no leading zero (except `"0"` itself), value at most 255. -/
def parseOctet (o : List Char) : Option Nat :=
  if o.isEmpty then none
  else if !o.all isAsciiDigit then none
  else if o.length > 3 then none
  else if o ≠ ['0'] && o.head? = some '0' then none
  else if natOfDigits o > 255 then none
  else some (natOfDigits o)

/-- `IPv4Address._ip_int_from_string`: exactly 4 dot-separated octets. -/
def ipv4IntFromString (s : List Char) : Option Nat :=
  if s.isEmpty then none
  else
    match splitOnChar '.' s with
    | [o1, o2, o3, o4] =>
      match parseOctet o1, parseOctet o2, parseOctet o3, parseOctet o4 with
      | some a, some b, some c, some d =>
        some (((a * 256 + b) * 256 + c) * 256 + d)
      | _, _, _, _ => none
    | _ => none

/-- `IPv6Address._parse_hextet`: ASCII hex digits only, at most 4 chars,
nonempty (`int('', 16)` raises). -/
def parseHextet (h : List Char) : Option Nat :=
  if !h.all isAsciiHex then none
  else if h.length > 4 then none
  else if h.isEmpty then none
  else some (hexValue h)

/-- Fold a list of hextets into one big-endian integer. -/
def foldHextets (ps : List (List Char)) : Option Nat :=
  ps.foldl (fun acc p => do
    let a ← acc
    let h ← parseHextet p
    some (a * 65536 + h)) (some 0)

/-- Is the part at index `i` empty? (`not parts[i]` in the CPython scan.) -/
def isEmptyAt (parts : List (List Char)) (i : Nat) : Bool :=
  match parts.get? i with
  | some [] => true
  | _ => false

/-- `IPv6Address._ip_int_from_string`: colon-split with at least 3 parts,
IPv4-embedded last part converted to two hextets, at most 9 parts, at most
one inner empty part (the `::`), endpoint-colon rules, at least one part
skipped when `::` is present, exactly 8 hextets otherwise. -/
def ipv6IntFromString (s : List Char) : Option Nat :=
  if s.isEmpty then none
  else
    let parts0 := splitOnChar ':' s
    if parts0.length < 3 then none
    else
      let partsO : Option (List (List Char)) :=
        match parts0.getLast? with
        | some lastP =>
          if '.' ∈ lastP then
            match ipv4IntFromString lastP with
            | some v4 =>
              some (parts0.dropLast ++ [natToHex16 (v4 / 65536), natToHex16 (v4 % 65536)])
            | none => none
          else some parts0
        | none => some parts0
      match partsO with
      | none => none
      | some parts =>
        if parts.length > 9 then none
        else
          let n := parts.length
          let inner := (List.range n).filter
            (fun i => decide (0 < i) && decide (i + 1 < n) && isEmptyAt parts i)
          if inner.length ≥ 2 then none
          else
            match inner with
            | [skip] =>
              let hi0 := skip
              let lo0 := n - skip - 1
              let headEmpty := isEmptyAt parts 0
              let lastEmpty := isEmptyAt parts (n - 1)
              let hi := if headEmpty then hi0 - 1 else hi0
              if headEmpty && decide (hi ≠ 0) then none
              else
                let lo := if lastEmpty then lo0 - 1 else lo0
                if lastEmpty && decide (lo ≠ 0) then none
                else if hi + lo ≥ 8 then none
                else do
                  let hiv ← foldHextets (parts.take hi)
                  let lov ← foldHextets (parts.drop (n - lo))
                  some (hiv * 2 ^ (16 * (8 - hi)) + lov)
            | _ =>
              if n ≠ 8 then none
              else if isEmptyAt parts 0 then none
              else if isEmptyAt parts (n - 1) then none
              else foldHextets parts

/-- `IPv6Address._split_scope_id`: split at the first `%`; a present but
empty scope, or a scope containing `%`, is an error. -/
def splitScopeId (s : List Char) : Option (List Char × Option (List Char)) :=
  if '%' ∈ s then
    let a := (pyPartition '%' s).1
    let sc := (pyPartition '%' s).2
    if sc.isEmpty || '%' ∈ sc then none else some (a, some sc)
  else some (s, none)

/-- `IPv4Address(str)`: rejects `/`, then parses dotted quad. -/
def pyIPv4AddressInt (s : List Char) : Option Nat :=
  if '/' ∈ s then none else ipv4IntFromString s

/-- `IPv6Address(str)`: rejects `/`, splits a scope id, parses the rest. -/
def pyIPv6AddressInt (s : List Char) : Option Nat :=
  if '/' ∈ s then none
  else
    match splitScopeId s with
    | some (a, _) => ipv6IntFromString a
    | none => none

/-- `_split_optional_netmask`: split on `/`, at most one permitted. -/
def splitOptionalNetmask (s : List Char) :
    Option (List Char × Option (List Char)) :=
  match splitOnChar '/' s with
  | [a] => some (a, none)
  | [a, m] => some (a, some m)
  | _ => none

/-- `_prefix_from_prefix_string`: ASCII digits, value within 0..maxLen. -/
def prefixFromPrefixString (maxLen : Nat) (m : List Char) : Option Nat :=
  if !m.isEmpty && m.all isAsciiDigit then
    if natOfDigits m ≤ maxLen then some (natOfDigits m) else none
  else none

/-- `IPv4Network(s, strict=False)` validity.  The dotted-quad
netmask/hostmask fallback of `_make_netmask` is not modelled: every call
site here guards the mask to be decimal digits, on which that fallback
(parsing the digits as a dotted-quad address) always fails. -/
def pyIPv4NetworkValid (s : List Char) : Option (Nat × Nat) := do
  let (a, m?) ← splitOptionalNetmask s
  let addr ← pyIPv4AddressInt a
  let plen ← match m? with
    | some m => prefixFromPrefixString 32 m
    | none => some 32
  some (addr, plen)

/-- `IPv6Network(s, strict=False)` validity: the address part goes
through `IPv6Address` (scope ids permitted), the mask through the
numeric prefix-length parser only. -/
def pyIPv6NetworkValid (s : List Char) : Option (Nat × Nat) := do
  let (a, m?) ← splitOptionalNetmask s
  let addr ← pyIPv6AddressInt a
  let plen ← match m? with
    | some m => prefixFromPrefixString 128 m
    | none => some 128
  some (addr, plen)

/-- `isinstance(ipaddress.ip_network(s, strict=False), IPv6Network)`,
with every `ValueError` collapsed to `false`: `ip_network` tries
`IPv4Network` first and returns it on success (so not an `IPv6Network`),
then tries `IPv6Network`. -/
def pyIpNetworkIsV6 (s : List Char) : Bool :=
  match pyIPv4NetworkValid s with
  | some _ => false
  | none => (pyIPv6NetworkValid s).isSome

/-! ## `srv6_utils.py` validators and test runner -/

/-- `srv6_utils.is_valid_ipv6`: `ipaddress.ip_address` tries
`IPv4Address` first (an IPv4 literal therefore yields `False`), then
`IPv6Address`; `ValueError` becomes `False`. -/
def is_valid_ipv6 (address : List Char) : Bool :=
  match pyIPv4AddressInt address with
  | some _ => false
  | none => (pyIPv6AddressInt address).isSome

/-- `srv6_utils.is_valid_ipv6_prefix`, translated line by line: require a
`/`, a digit mask, the alphabetic-hextet quirk, then the full network
parse. -/
def is_valid_ipv6_prefix (pfx : List Char) : Bool :=
  if '/' ∈ pfx then
    let addr := (pyPartition '/' pfx).1
    let mask := (pyPartition '/' pfx).2
    if pyStrIsdigit mask then
      let hextets := (splitOnChar ':' addr).filter (fun h => !h.isEmpty)
      if hextets.all (fun h => !pyStrIsalpha h || h.length == 4) then
        pyIpNetworkIsV6 pfx
      else false
    else false
  else false

/-- `srv6_utils.run_srv6_test`. -/
def run_srv6_test (p : List Char) : List Char :=
  if !( is_valid_ipv6_prefix p) then chars "Invalid SRv6 prefix: " ++ p
  else chars "Running automation for SRv6 prefix " ++ p

/-! ## `core.py` (older duplicate implementations used by the CLI)

`core.is_valid_ipv6` is a hand-written regex
`^(h{1,4}:){7}h{1,4}$|^(h{1,4}:){1,7}:$|^:(h{1,4}:){1,7}$` over hex
groups; `core.run_srv6_test` gates on it (not on the CIDR validator). -/

/-- Consume one `[0-9a-fA-F]{1,4}:` group; deterministic because a hex
run cannot be split before a `:`. -/
def hexRunColon (l : List Char) : Option (List Char) :=
  let run := l.takeWhile isAsciiHex
  let rest := l.dropWhile isAsciiHex
  if !run.isEmpty && run.length ≤ 4 && rest.head? = some ':' then
    some rest.tail
  else none

/-- `[0-9a-fA-F]{1,4}$` for a final group. -/
def hexTail (l : List Char) : Bool :=
  !l.isEmpty && l.all isAsciiHex && l.length ≤ 4

/-- Consume exactly `n` `h{1,4}:` groups. -/
def repHexColon : Nat → List Char → Option (List Char)
  | 0, l => some l
  | n + 1, l =>
    match hexRunColon l with
    | some r => repHexColon n r
    | none => none

/-- `(h{1,4}:){1,7}:$`: after each of 1..7 groups the rest may be `":"`. -/
def upTo7ThenColon : Nat → List Char → Bool
  | 0, _ => false
  | n + 1, l =>
    match hexRunColon l with
    | some r => r = [':'] || upTo7ThenColon n r
    | none => false

/-- `(h{1,4}:){1,7}$` (used after a leading `:`). -/
def upTo7ThenEnd : Nat → List Char → Bool
  | 0, _ => false
  | n + 1, l =>
    match hexRunColon l with
    | some r => r.isEmpty || upTo7ThenEnd n r
    | none => false

/-- `core.is_valid_ipv6`: the three-branch regex. -/
def core_is_valid_ipv6 (a : List Char) : Bool :=
  (match repHexColon 7 a with
   | some r => hexTail r
   | none => false)
  || upTo7ThenColon 7 a
  || (match a with
      | ':' :: rest => upTo7ThenEnd 7 rest
      | _ => false)

/-- `core.run_srv6_test` (the entry point `cli.main` calls). -/
def core_run_srv6_test (p : List Char) : List Char :=
  if !core_is_valid_ipv6 p then chars "Invalid SRv6 prefix: " ++ p
  else chars "Running automation for SRv6 prefix " ++ p

/-! ## `srv6_utils.parse_srv6_config`

The six module-level regexes are translated into deterministic matcher
functions; determinism of each translation was checked against the
backtracking semantics of the original pattern (greedy `\S+`/`\s+` runs
cannot be split profitably before the delimiters that follow them). -/

/-- Case-insensitive literal keyword consumption. -/
def consumeCI : List Char → List Char → Option (List Char)
  | [], l => some l
  | _ :: _, [] => none
  | k :: ks, c :: cs =>
    if lowerCh c = lowerCh k then consumeCI ks cs else none

/-- `[-_\s]?`: one optional separator character. -/
def optSep (l : List Char) : List Char :=
  match l with
  | c :: cs => if c = '-' || c = '_' || pyIsSpace c then cs else l
  | [] => l

/-- `(?:\s+#.*)?$`: nothing left, or a whitespace run then `#`. -/
def commentTail (l : List Char) : Bool :=
  match l with
  | [] => true
  | c :: cs => pyIsSpace c && (cs.dropWhile pyIsSpace).head? = some '#'

/-- `\s*(?:#.*)?$`: only whitespace left, possibly then `#...`. -/
def commentTailStar (l : List Char) : Bool :=
  match l.dropWhile pyIsSpace with
  | [] => true
  | c :: _ => c = '#'

/-- `^\s*source[-_\s]?address\s+(\S+)(?:\s+#.*)?$` on a stripped line. -/
def matchSourceAddr (line : List Char) : Option (List Char) :=
  match consumeCI (chars "source") line with
  | none => none
  | some r0 =>
    match consumeCI (chars "address") (optSep r0) with
    | none => none
    | some r1 =>
      match r1 with
      | c :: cs =>
        if pyIsSpace c then
          let r2 := cs.dropWhile pyIsSpace
          let tok := r2.takeWhile (fun x => !pyIsSpace x)
          let rest := r2.dropWhile (fun x => !pyIsSpace x)
          if !tok.isEmpty && commentTail rest then some tok else none
        else none
      | [] => none

/-- `^\s*locator\s+(\S+)\s*$` on a stripped line. -/
def matchLocator (line : List Char) : Option (List Char) :=
  match consumeCI (chars "locator") line with
  | none => none
  | some r0 =>
    match r0 with
    | c :: cs =>
      if pyIsSpace c then
        let r1 := cs.dropWhile pyIsSpace
        let tok := r1.takeWhile (fun x => !pyIsSpace x)
        let rest := r1.dropWhile (fun x => !pyIsSpace x)
        if !tok.isEmpty && rest.all pyIsSpace then some tok else none
      else none
    | [] => none

/-- `^\s*prefix\s+` (a prefix-of-line test, per `re.match`). -/
def matchPrefixLine (line : List Char) : Bool :=
  match consumeCI (chars "prefix") line with
  | some (c :: _) => pyIsSpace c
  | _ => false

/-- Does `l` begin with a whitespace run followed by `#`? -/
def wsHash (l : List Char) : Bool :=
  match l with
  | c :: cs => pyIsSpace c && (cs.dropWhile pyIsSpace).head? = some '#'
  | [] => false

/-- Lazy `(.+?)` before `(?:\s+#.*)?$`: cut before the first
whitespace-run-then-`#`; the whole rest if there is none. -/
def msCut : List Char → List Char
  | [] => []
  | c :: cs => if wsHash cs then [c] else c :: msCut cs

/-- `^\s*micro[-_\s]?segment[-_\s]?behavior\s+(.+?)(?:\s+#.*)?$` on a
stripped line (so the lazy group need not consider leading/trailing
whitespace splits). -/
def matchMicroseg (line : List Char) : Option (List Char) :=
  match consumeCI (chars "micro") line with
  | none => none
  | some r0 =>
    match consumeCI (chars "segment") (optSep r0) with
    | none => none
    | some r1 =>
      match consumeCI (chars "behavior") (optSep r1) with
      | none => none
      | some r2 =>
        match r2 with
        | c :: cs =>
          if pyIsSpace c then
            let r3 := cs.dropWhile pyIsSpace
            if r3.isEmpty then none else some (msCut r3)
          else none
        | [] => none

/-- `^\s*behavior\s+(\S+)(?:\s+#.*)?$` on a stripped line. -/
def matchBehaviorLine (line : List Char) : Option (List Char) :=
  match consumeCI (chars "behavior") line with
  | none => none
  | some r0 =>
    match r0 with
    | c :: cs =>
      if pyIsSpace c then
        let r1 := cs.dropWhile pyIsSpace
        let tok := r1.takeWhile (fun x => !pyIsSpace x)
        let rest := r1.dropWhile (fun x => !pyIsSpace x)
        if !tok.isEmpty && commentTail rest then some tok else none
      else none
    | [] => none

/-- Tail of `_RE_PSP`/`_RE_USP` after the keyword:
`(?:\s+(enable|disable))?\s*(?:#.*)?$`. -/
def flagTail (l : List Char) : Bool :=
  (match l with
   | c :: cs =>
     if pyIsSpace c then
       let r := cs.dropWhile pyIsSpace
       (match consumeCI (chars "enable") r with
        | some r2 => commentTailStar r2
        | none =>
          match consumeCI (chars "disable") r with
          | some r2 => commentTailStar r2
          | none => false)
     else false
   | [] => false)
  || commentTailStar l

/-- `^\s*(no\s+)?KW(?:\s+(enable|disable))?\s*(?:#.*)?$` on a stripped
line, for KW = psp or usp. -/
def matchFlagLine (kw : List Char) (line : List Char) : Bool :=
  let core (l : List Char) : Bool :=
    match consumeCI kw l with
    | some r => flagTail r
    | none => false
  match consumeCI (chars "no") line with
  | some (c :: cs) =>
    if pyIsSpace c then core (cs.dropWhile pyIsSpace) || core line
    else core line
  | _ => core line

/-- `srv6_utils._strip_comment`: `line.split("#", 1)[0].rstrip()`. -/
def stripComment (l : List Char) : List Char :=
  pyRstrip (l.takeWhile (fun c => c ≠ '#'))

/-- Adjacent `"no"`, flag pair scan (`for i in range(len(t)-1)`).  Dead
whenever the flag itself occurs among the tokens, since Python's
membership test short-circuits first. -/
def hasNoPair (flag : List Char) : List (List Char) → Bool
  | a :: b :: rest => (a = chars "no" && b = flag) || hasNoPair flag (b :: rest)
  | _ => false

/-- `srv6_utils._parse_flag_from_tokens`, translated exactly: note that
when the flag is present the function returns before ever reaching the
`no <flag>` loop, so `["no", "psp"]` yields `some true`. -/
def parseFlagFromTokens (flag : List Char) (tokens : List (List Char)) :
    Option Bool :=
  let t := tokens.map lowerStr
  match t.findIdx? (fun x => x = flag) with
  | some idx =>
    match t.get? (idx + 1) with
    | some nxt =>
      if nxt = chars "enable" || nxt = chars "enabled" ||
         nxt = chars "true" || nxt = chars "on" then some true
      else if nxt = chars "disable" || nxt = chars "disabled" ||
         nxt = chars "false" || nxt = chars "off" then some false
      else some true
    | none => some true
  | none => if hasNoPair flag t then some false else none

/-- One parsed prefix entry: the dict
`{"prefix": cidr, "behavior": ..., "psp": ..., "usp": ...}`.  The
dict key `prefix` is called `cidr` here (`prefix` is a Lean keyword). -/
structure PfxEntry where
  cidr : List Char
  behavior : Option (List Char)
  psp : Bool
  usp : Bool
deriving DecidableEq

/-- The `defaults` bucket of a locator. -/
structure FlagSet where
  behavior : Option (List Char)
  psp : Bool
  usp : Bool
deriving DecidableEq

/-- One locator's dict: `prefixes`, `defaults`, and the two legacy keys
(`prefix`, set once on the first prefix — called `legacyCidr` here — and
`micro_segment`), absent keys modelled as `none`. -/
structure LocatorEntry where
  prefixes : List PfxEntry
  defaults : FlagSet
  legacyCidr : Option (List Char)
  microSegment : Option (List Char)
deriving DecidableEq

/-- The result dict of `parse_srv6_config`; `locators` is an insertion-
ordered association list, like a Python dict. -/
structure ParsedConfig where
  source_address : Option (List Char)
  locators : List (List Char × LocatorEntry)
deriving DecidableEq

/-- Parser state: the result under construction plus the two loop
variables.  `last_prefix_obj`, when not `None`, always aliases the last
element of the current locator's `prefixes` (it is set exactly when a
prefix is appended there and cleared on every `locator` line), so a
boolean suffices. -/
structure ParseState where
  source_address : Option (List Char)
  locators : List (List Char × LocatorEntry)
  currentLocator : Option (List Char)
  hasLastPfx : Bool
deriving DecidableEq

def emptyLoc : LocatorEntry :=
  { prefixes := [], defaults := { behavior := none, psp := false, usp := false },
    legacyCidr := none, microSegment := none }

def initState : ParseState :=
  { source_address := none, locators := [], currentLocator := none,
    hasLastPfx := false }

/-- Ordered-dict lookup. -/
def lookupLoc : List (List Char × LocatorEntry) → List Char →
    Option LocatorEntry
  | [], _ => none
  | (k, v) :: rest, key => if k = key then some v else lookupLoc rest key

/-- Ordered-dict in-place update of an existing key. -/
def updateLoc (f : LocatorEntry → LocatorEntry) :
    List (List Char × LocatorEntry) → List Char →
    List (List Char × LocatorEntry)
  | [], _ => []
  | (k, v) :: rest, key =>
    if k = key then (k, f v) :: rest else (k, v) :: updateLoc f rest key

/-- `_ensure_locator`: `setdefault` appends a fresh entry at the end for
a new key and leaves an existing entry untouched. -/
def ensureLocator (m : List (List Char × LocatorEntry)) (k : List Char) :
    List (List Char × LocatorEntry) :=
  match lookupLoc m k with
  | some _ => m
  | none => m ++ [(k, emptyLoc)]

/-- Modify the last element of a list (the entry `last_prefix_obj`
aliases). -/
def modifyLast {α : Type} (f : α → α) : List α → List α
  | [] => []
  | [x] => [f x]
  | x :: y :: rest => x :: modifyLast f (y :: rest)

/-- Field updaters for the handler bodies of the parser loop. -/
def setDefBehavior (v : List Char) (e : LocatorEntry) : LocatorEntry :=
  { e with defaults := { e.defaults with behavior := some v } }

def setDefPsp (v : Bool) (e : LocatorEntry) : LocatorEntry :=
  { e with defaults := { e.defaults with psp := v } }

def setDefUsp (v : Bool) (e : LocatorEntry) : LocatorEntry :=
  { e with defaults := { e.defaults with usp := v } }

/-- The legacy micro-segment handler writes both `defaults.behavior` and
the backward-compat `micro_segment` key. -/
def setMicroseg (v : List Char) (e : LocatorEntry) : LocatorEntry :=
  { e with defaults := { e.defaults with behavior := some v },
           microSegment := some v }

def setLastBehavior (v : List Char) (e : LocatorEntry) : LocatorEntry :=
  { e with prefixes := modifyLast (fun p => { p with behavior := some v }) e.prefixes }

def setLastPsp (v : Bool) (e : LocatorEntry) : LocatorEntry :=
  { e with prefixes := modifyLast (fun p => { p with psp := v }) e.prefixes }

def setLastUsp (v : Bool) (e : LocatorEntry) : LocatorEntry :=
  { e with prefixes := modifyLast (fun p => { p with usp := v }) e.prefixes }

/-- The prefix-line handler: append an entry seeded from the current
defaults, and set the legacy `prefix` key if absent. -/
def appendPfx (cidr : List Char) (e : LocatorEntry) : LocatorEntry :=
  { e with
    prefixes := e.prefixes ++
      [{ cidr := cidr, behavior := e.defaults.behavior,
         psp := e.defaults.psp, usp := e.defaults.usp }],
    legacyCidr := match e.legacyCidr with
      | none => some cidr
      | some x => some x }

/-- Process one raw line of the configuration, in the exact order of the
source: strip; skip blank/comment; `source-address`; `locator`; skip if
no locator context; tokenize the comment-stripped line; legacy
micro-segment (always to defaults); `behavior`/psp/usp to defaults only
while no prefix was added yet; `prefix` lines append an entry seeded
from the defaults (the committed source's inline-modifier parsing is an
elided placeholder comment, so nothing further is applied); afterwards
`behavior`/psp/usp modify the most recently appended prefix. -/
def processLine (st : ParseState) (raw : List Char) : ParseState :=
  let line := pyStrip raw
  if line.isEmpty then st
  else if line.head? = some '#' then st
  else
    match matchSourceAddr line with
    | some tok => { st with source_address := some tok }
    | none =>
      match matchLocator line with
      | some name =>
        { st with locators := ensureLocator st.locators name,
                  currentLocator := some name, hasLastPfx := false }
      | none =>
        match st.currentLocator with
        | none => st
        | some cur =>
          let base := stripComment line
          let tokens := wsSplit base
          if tokens.isEmpty then st
          else
            let locs := ensureLocator st.locators cur
            let post : ParseState :=
              if st.hasLastPfx then
                match matchBehaviorLine line with
                | some v =>
                  { st with locators := updateLoc (setLastBehavior v) locs cur }
                | none =>
                  if matchFlagLine (chars "psp") line then
                    match parseFlagFromTokens (chars "psp") tokens with
                    | some v =>
                      { st with locators := updateLoc (setLastPsp v) locs cur }
                    | none => { st with locators := locs }
                  else if matchFlagLine (chars "usp") line then
                    match parseFlagFromTokens (chars "usp") tokens with
                    | some v =>
                      { st with locators := updateLoc (setLastUsp v) locs cur }
                    | none => { st with locators := locs }
                  else { st with locators := locs }
              else { st with locators := locs }
            match matchMicroseg line with
            | some v0 =>
              { st with locators := updateLoc (setMicroseg (pyStrip v0)) locs cur }
            | none =>
              match matchBehaviorLine line, st.hasLastPfx with
              | some v, false =>
                { st with locators := updateLoc (setDefBehavior v) locs cur }
              | _, _ =>
                if matchFlagLine (chars "psp") line && !st.hasLastPfx then
                  match parseFlagFromTokens (chars "psp") tokens with
                  | some v =>
                    { st with locators := updateLoc (setDefPsp v) locs cur }
                  | none => { st with locators := locs }
                else if matchFlagLine (chars "usp") line && !st.hasLastPfx then
                  match parseFlagFromTokens (chars "usp") tokens with
                  | some v =>
                    { st with locators := updateLoc (setDefUsp v) locs cur }
                  | none => { st with locators := locs }
                else if matchPrefixLine line then
                  match tokens with
                  | _ :: cidr :: _ =>
                    { st with locators := updateLoc (appendPfx cidr) locs cur,
                              hasLastPfx := true }
                  | _ => post
                else post

/-- Worker for Python `str.splitlines()`: `cur` is the reversed current
line; no trailing empty line is produced. -/
def splitLinesGo (cur : List Char) : List Char → List (List Char)
  | [] => [cur.reverse]
  | c :: rest =>
    if c = '\n' || c = '\r' then
      cur.reverse :: (match rest with
        | [] => []
        | _ :: _ => splitLinesGo [] rest)
    else splitLinesGo (c :: cur) rest

/-- Python `str.splitlines()` restricted to the `\n` and `\r`
terminators, treated independently (`"" -> []`, no trailing empty line).
A Python `"\r\n"` produces one line break where this produces two, i.e.
one extra empty line; `parse_srv6_config` skips blank lines, so the two
are indistinguishable through the parser. -/
def splitLines (l : List Char) : List (List Char) :=
  if l.isEmpty then [] else splitLinesGo [] l

/-- `srv6_utils.parse_srv6_config`: fold the line processor over the
lines and return the result dict. -/
def parse_srv6_config (config : List Char) : ParsedConfig :=
  let fin := (splitLines config).foldl processLine initState
  { source_address := fin.source_address, locators := fin.locators }

/-- A simple token: nonempty, no whitespace, no `#`. -/
def isTok (t : List Char) : Bool :=
  !t.isEmpty && t.all (fun c => !pyIsSpace c && c ≠ '#')


/-- Join lines with `\n` (no trailing newline). -/
def joinNL : List (List Char) → List Char
  | [] => []
  | [l] => l
  | l :: ls => l ++ '\n' :: joinNL ls


/-- A line with no line terminators. -/
def cleanLine (l : List Char) : Bool :=
  !l.isEmpty && l.all (fun c => !(c = '\n' || c = '\r'))


/-- The claim-side characterisation of `is_valid_ipv6_prefix`, phrased
as the spec phrases it: a `/` present, a purely-decimal mask, the
alphabetic-hextet quirk over the `:`-split address part (empty segments
from `::` compression ignored), and the whole string parsing as an IPv6
network with host bits permitted. -/
def ipv6CidrClaim (pfx : List Char) : Bool :=
  decide ('/' ∈ pfx) && pyStrIsdigit (pyPartition '/' pfx).2
  && ((splitOnChar ':' (pyPartition '/' pfx).1).filter (fun h => !h.isEmpty)).all
       (fun h => !pyStrIsalpha h || h.length == 4)
  && pyIpNetworkIsV6 pfx

/-! ## Helper lemmas: takeWhile/dropWhile over clean segments -/

theorem takeWhile_append_all {α : Type} (p : α → Bool) (l1 : List α)
    (l2 : List α) (h : ∀ c ∈ l1, p c = true) :
    (l1 ++ l2).takeWhile p = l1 ++ l2.takeWhile p := by
  induction l1 with
  | nil => rfl
  | cons a t ih =>
    have hpa : p a = true := h a (List.mem_cons_self a t)
    calc ((a :: t) ++ l2).takeWhile p
        = a :: (t ++ l2).takeWhile p := by
          rw [List.cons_append, List.takeWhile_cons, hpa]
          rfl
      _ = (a :: t) ++ l2.takeWhile p := by
          rw [ih fun c hc => h c (List.mem_cons_of_mem a hc)]
          rfl

theorem dropWhile_append_all {α : Type} (p : α → Bool) (l1 : List α)
    (l2 : List α) (h : ∀ c ∈ l1, p c = true) :
    (l1 ++ l2).dropWhile p = l2.dropWhile p := by
  induction l1 with
  | nil => rfl
  | cons a t ih =>
    have hpa : p a = true := h a (List.mem_cons_self a t)
    calc ((a :: t) ++ l2).dropWhile p
        = (t ++ l2).dropWhile p := by
          rw [List.cons_append, List.dropWhile_cons, hpa]
          rfl
      _ = l2.dropWhile p := ih fun c hc => h c (List.mem_cons_of_mem a hc)

theorem takeWhile_all {α : Type} (p : α → Bool) {l : List α}
    (h : ∀ c ∈ l, p c = true) : l.takeWhile p = l :=
  List.takeWhile_eq_self_iff.mpr h

theorem dropWhile_all {α : Type} (p : α → Bool) {l : List α}
    (h : ∀ c ∈ l, p c = true) : l.dropWhile p = [] :=
  List.dropWhile_eq_nil_iff.mpr h

theorem dropWhile_keep {α : Type} (p : α → Bool) {a : α} (l : List α)
    (h : p a = false) : (a :: l).dropWhile p = a :: l := by
  simp [List.dropWhile_cons, h]

/-! ## Simple token facts -/

theorem isTok_ne_nil {t : List Char} (h : isTok t = true) : t ≠ [] := by
  intro he
  rw [he] at h
  simp [isTok] at h

theorem isTok_not_ws {t : List Char} (h : isTok t = true) :
    ∀ c ∈ t, pyIsSpace c = false := by
  intro c hc
  simp only [isTok, Bool.and_eq_true, List.all_eq_true] at h
  have := h.2 c hc
  simp only [Bool.and_eq_true, Bool.not_eq_true'] at this
  exact this.1

theorem isTok_ne_hash {t : List Char} (h : isTok t = true) :
    ∀ c ∈ t, ¬(c = '#') := by
  intro c hc
  simp only [isTok, Bool.and_eq_true, List.all_eq_true] at h
  have := h.2 c hc
  simp only [Bool.and_eq_true, decide_eq_true_eq] at this
  exact this.2

theorem tok_dropWs {t : List Char} (h : isTok t = true) :
    t.dropWhile pyIsSpace = t := by
  match t, isTok_ne_nil h with
  | c :: cs, _ => exact dropWhile_keep pyIsSpace cs (isTok_not_ws h c (by simp))

theorem tok_takeNonWs {t : List Char} (h : isTok t = true) :
    t.takeWhile (fun x => !pyIsSpace x) = t :=
  takeWhile_all _ (fun c hc => by simp [isTok_not_ws h c hc])

theorem tok_dropNonWs {t : List Char} (h : isTok t = true) :
    t.dropWhile (fun x => !pyIsSpace x) = [] :=
  dropWhile_all _ (fun c hc => by simp [isTok_not_ws h c hc])

theorem rstrip_append_tok (l : List Char) {t : List Char}
    (h : isTok t = true) : pyRstrip (l ++ t) = l ++ t := by
  unfold pyRstrip
  obtain ⟨c, cs, hrev⟩ : ∃ c cs, t.reverse = c :: cs := by
    cases hr : t.reverse with
    | nil => exact absurd (List.reverse_eq_nil_iff.mp hr) (isTok_ne_nil h)
    | cons c cs => exact ⟨c, cs, rfl⟩
  have hc : c ∈ t := by
    have : c ∈ t.reverse := by rw [hrev]; simp
    simpa using this
  rw [List.reverse_append, hrev, List.cons_append]
  rw [dropWhile_keep pyIsSpace _ (isTok_not_ws h c hc)]
  rw [← List.cons_append, ← hrev, ← List.reverse_append, List.reverse_reverse]

theorem strip_keep {c : Char} (mid : List Char) {t : List Char}
    (hc : pyIsSpace c = false) (h : isTok t = true) :
    pyStrip (c :: (mid ++ t)) = c :: (mid ++ t) := by
  unfold pyStrip pyLstrip
  rw [dropWhile_keep pyIsSpace _ hc]
  have := rstrip_append_tok (c :: mid) h
  simpa using this

theorem stripComment_keep {c : Char} (mid : List Char) {t : List Char}
    (_hc : pyIsSpace c = false) (hch : ¬(c = '#'))
    (hmid : ∀ x ∈ mid, ¬(x = '#')) (h : isTok t = true) :
    stripComment (c :: (mid ++ t)) = c :: (mid ++ t) := by
  unfold stripComment
  have hall : ∀ x ∈ c :: (mid ++ t), (fun y => decide ¬(y = '#')) x = true := by
    intro x hx
    rcases hx with _ | hx
    · simpa using hch
    · rcases List.mem_append.mp (by assumption) with hm | hm
      · simpa using hmid x hm
      · simpa using isTok_ne_hash h x hm
  rw [takeWhile_all _ hall]
  have := rstrip_append_tok (c :: mid) h
  simpa using this

/-! ## wsSplit over literal-and-token lines -/

theorem wsSplitGo_skip_nonws {t : List Char} (l cur : List Char)
    (h : ∀ c ∈ t, pyIsSpace c = false) :
    wsSplitGo cur (t ++ l) = wsSplitGo (t.reverse ++ cur) l := by
  induction t generalizing cur with
  | nil => simp
  | cons a ts ih =>
    have ha : pyIsSpace a = false := h a (by simp)
    simp only [List.cons_append, wsSplitGo, ha, Bool.false_eq_true, if_false]
    show wsSplitGo (a :: cur) (ts ++ l) = _
    rw [ih _ (fun c hc => h c (by simp [hc]))]
    simp [List.append_assoc]

theorem wsSplitGo_ws {c : Char} (l cur : List Char) (hc : pyIsSpace c = true) :
    wsSplitGo cur (c :: l) =
      if cur.isEmpty then wsSplitGo [] l else cur.reverse :: wsSplitGo [] l := by
  simp [wsSplitGo, hc]

/-- `"lit tok".split()` = `[lit, tok]` for a whitespace-free literal and
a simple token. -/
theorem wsSplit_lit_tok {lit t : List Char} (hlit : ∀ c ∈ lit, pyIsSpace c = false)
    (hne : lit ≠ []) (ht : isTok t = true) :
    wsSplit (lit ++ (' ' :: t)) = [lit, t] := by
  unfold wsSplit
  rw [wsSplitGo_skip_nonws _ _ hlit, wsSplitGo_ws _ _ (by decide)]
  rw [if_neg (by simpa using List.reverse_ne_nil_iff.mpr hne)]
  have : t ++ ([] : List Char) = t := by simp
  rw [← this, wsSplitGo_skip_nonws _ _ (isTok_not_ws ht)]
  simp only [wsSplitGo, List.append_nil]
  rw [if_neg (by simpa using List.reverse_ne_nil_iff.mpr (isTok_ne_nil ht))]
  simp

/-- `"lit1 lit2 tok".split()` = `[lit1, lit2, tok]`. -/
theorem wsSplit_lit_lit_tok {l1 l2 t : List Char}
    (h1 : ∀ c ∈ l1, pyIsSpace c = false) (hne1 : l1 ≠ [])
    (h2 : ∀ c ∈ l2, pyIsSpace c = false) (hne2 : l2 ≠ [])
    (ht : isTok t = true) :
    wsSplit (l1 ++ (' ' :: (l2 ++ (' ' :: t)))) = [l1, l2, t] := by
  unfold wsSplit
  rw [wsSplitGo_skip_nonws _ _ h1, wsSplitGo_ws _ _ (by decide)]
  rw [if_neg (by simpa using List.reverse_ne_nil_iff.mpr hne1)]
  rw [wsSplitGo_skip_nonws _ _ h2, wsSplitGo_ws _ _ (by decide)]
  rw [if_neg (by simpa using List.reverse_ne_nil_iff.mpr hne2)]
  have : t ++ ([] : List Char) = t := by simp
  rw [← this, wsSplitGo_skip_nonws _ _ (isTok_not_ws ht)]
  simp only [wsSplitGo, List.append_nil]
  rw [if_neg (by simpa using List.reverse_ne_nil_iff.mpr (isTok_ne_nil ht))]
  simp

/-! ## splitLines over joined clean lines -/

theorem splitLinesGo_skip {t : List Char} (l cur : List Char)
    (h : ∀ c ∈ t, ((c = '\n' || c = '\r') : Bool) = false) :
    splitLinesGo cur (t ++ l) = splitLinesGo (t.reverse ++ cur) l := by
  induction t generalizing cur with
  | nil => simp
  | cons a ts ih =>
    have ha := h a (by simp)
    simp only [Bool.or_eq_false_iff, decide_eq_false_iff_not] at ha
    simp only [List.cons_append, splitLinesGo]
    rw [if_neg (by simp [ha.1, ha.2])]
    show splitLinesGo (a :: cur) (ts ++ l) = _
    rw [ih _ (fun c hc => h c (by simp [hc]))]
    simp [List.append_assoc]

theorem joinNL_ne_nil {l : List Char} (ls : List (List Char)) (h : l ≠ []) :
    joinNL (l :: ls) ≠ [] := by
  cases ls with
  | nil => simpa [joinNL] using h
  | cons l2 ls2 =>
    simp only [joinNL]
    intro he
    exact absurd (List.append_eq_nil.mp he).1 h

theorem cleanLine_ne_nil {l : List Char} (h : cleanLine l = true) : l ≠ [] := by
  intro he
  rw [he] at h
  simp [cleanLine] at h

theorem cleanLine_chars {l : List Char} (h : cleanLine l = true) :
    ∀ c ∈ l, ((c = '\n' || c = '\r') : Bool) = false := by
  intro c hc
  simp only [cleanLine, Bool.and_eq_true, List.all_eq_true] at h
  have := h.2 c hc
  simp only [Bool.not_eq_true'] at this
  exact this

/-- Splitting a `\n`-join of clean lines recovers the lines. -/
theorem splitLines_joinNL {ls : List (List Char)}
    (h : ∀ l ∈ ls, cleanLine l = true) (hne : ls ≠ []) :
    splitLines (joinNL ls) = ls := by
  induction ls with
  | nil => exact absurd rfl hne
  | cons l ls2 ih =>
    have hl : cleanLine l = true := h l (by simp)
    cases ls2 with
    | nil =>
      show splitLines (joinNL [l]) = [l]
      simp only [joinNL, splitLines]
      rw [if_neg (by simpa using cleanLine_ne_nil hl)]
      have : l ++ ([] : List Char) = l := by simp
      rw [← this, splitLinesGo_skip _ _ (cleanLine_chars hl)]
      simp [splitLinesGo]
    | cons l2 ls3 =>
      have hrest : joinNL (l2 :: ls3) ≠ [] :=
        joinNL_ne_nil ls3 (cleanLine_ne_nil (h l2 (by simp)))
      show splitLines (l ++ '\n' :: joinNL (l2 :: ls3)) = l :: l2 :: ls3
      unfold splitLines
      rw [if_neg (by cases l <;> simp)]
      rw [splitLinesGo_skip _ _ (cleanLine_chars hl)]
      simp only [splitLinesGo, List.append_nil]
      rw [if_pos (by decide)]
      match hj : joinNL (l2 :: ls3), hrest with
      | c :: r, _ =>
        have ihr : splitLines (joinNL (l2 :: ls3)) = l2 :: ls3 :=
          ih (fun x hx => h x (by simp [hx])) (by simp)
        rw [hj] at ihr
        unfold splitLines at ihr
        rw [if_neg (by simp)] at ihr
        simpa using ihr

/-! ## Matcher evaluation on constructed directive lines -/

theorem tok_strip {t : List Char} (h : isTok t = true) : pyStrip t = t := by
  unfold pyStrip pyLstrip
  rw [tok_dropWs h]
  have := rstrip_append_tok [] h
  simpa using this

theorem matchBehaviorLine_tok {X : List Char} (h : isTok X = true) :
    matchBehaviorLine (chars "behavior " ++ X) = some X := by
  have e1 : matchBehaviorLine (chars "behavior " ++ X) =
      (if !((X.dropWhile pyIsSpace).takeWhile (fun x => !pyIsSpace x)).isEmpty
          && commentTail ((X.dropWhile pyIsSpace).dropWhile (fun x => !pyIsSpace x))
       then some ((X.dropWhile pyIsSpace).takeWhile (fun x => !pyIsSpace x))
       else none) := rfl
  rw [e1, tok_dropWs h, tok_takeNonWs h, tok_dropNonWs h]
  have hne : X.isEmpty = false := by
    cases X with
    | nil => exact absurd rfl (isTok_ne_nil h)
    | cons a t => rfl
  simp [commentTail, hne]

theorem matchLocator_tok {L : List Char} (h : isTok L = true) :
    matchLocator (chars "locator " ++ L) = some L := by
  have e1 : matchLocator (chars "locator " ++ L) =
      (if !((L.dropWhile pyIsSpace).takeWhile (fun x => !pyIsSpace x)).isEmpty
          && ((L.dropWhile pyIsSpace).dropWhile (fun x => !pyIsSpace x)).all pyIsSpace
       then some ((L.dropWhile pyIsSpace).takeWhile (fun x => !pyIsSpace x))
       else none) := rfl
  rw [e1, tok_dropWs h, tok_takeNonWs h, tok_dropNonWs h]
  have hne : L.isEmpty = false := by
    cases L with
    | nil => exact absurd rfl (isTok_ne_nil h)
    | cons a t => rfl
  simp [hne]

theorem msCut_nonws : ∀ {V : List Char},
    (∀ c ∈ V, pyIsSpace c = false) → msCut V = V := by
  intro V h
  induction V with
  | nil => rfl
  | cons c cs ih =>
    have hw : wsHash cs = false := by
      cases cs with
      | nil => rfl
      | cons d ds => simp [wsHash, h d (by simp)]
    simp [msCut, hw, ih (fun x hx => h x (by simp [hx]))]

theorem matchMicroseg_tok {V : List Char} (h : isTok V = true) :
    matchMicroseg (chars "micro-segment behavior " ++ V) = some V := by
  have e1 : matchMicroseg (chars "micro-segment behavior " ++ V) =
      (if (V.dropWhile pyIsSpace).isEmpty then none
       else some (msCut (V.dropWhile pyIsSpace))) := rfl
  rw [e1, tok_dropWs h]
  have hne : V.isEmpty = false := by
    cases V with
    | nil => exact absurd rfl (isTok_ne_nil h)
    | cons a t => rfl
  simp [hne, msCut_nonws (isTok_not_ws h)]

/-! ## Locator-map lemmas -/

theorem ensure_mem {m : List (List Char × LocatorEntry)} {k : List Char}
    {e : LocatorEntry} (h : lookupLoc m k = some e) : ensureLocator m k = m := by
  unfold ensureLocator
  rw [h]

theorem lookup_singleton (k : List Char) (e : LocatorEntry) :
    lookupLoc [(k, e)] k = some e := by
  simp [lookupLoc]

theorem update_singleton (f : LocatorEntry → LocatorEntry) (k : List Char)
    (e : LocatorEntry) : updateLoc f [(k, e)] k = [(k, f e)] := by
  simp [updateLoc]

/-! ## One-line processing lemmas for constructed directive lines -/

theorem processLine_locator (st : ParseState) {L : List Char}
    (hL : isTok L = true) :
    processLine st (chars "locator " ++ L) =
      { st with locators := ensureLocator st.locators L,
                currentLocator := some L, hasLastPfx := false } := by
  have hstrip : pyStrip (chars "locator " ++ L) = chars "locator " ++ L := by
    have e : chars "locator " ++ L = 'l' :: (chars "ocator " ++ L) := rfl
    rw [e]; exact strip_keep _ (by decide) hL
  have hsa : matchSourceAddr (chars "locator " ++ L) = none := rfl
  have hloc := matchLocator_tok hL
  have hie : (chars "locator " ++ L).isEmpty = false := rfl
  have hhd : ¬((chars "locator " ++ L).head? = some '#') :=
    fun h => absurd (Option.some.inj h) (by decide)
  simp only [processLine, hstrip, hie, Bool.false_eq_true, if_false, hhd,
    if_false, hsa, hloc]

theorem processLine_behavior_default (st : ParseState) {cur X : List Char}
    {e : LocatorEntry} (hX : isTok X = true)
    (hcur : st.currentLocator = some cur) (hlast : st.hasLastPfx = false)
    (hmem : lookupLoc st.locators cur = some e) :
    processLine st (chars "behavior " ++ X) =
      { st with locators := updateLoc (setDefBehavior X) st.locators cur } := by
  have hstrip : pyStrip (chars "behavior " ++ X) = chars "behavior " ++ X := by
    have e1 : chars "behavior " ++ X = 'b' :: (chars "ehavior " ++ X) := rfl
    rw [e1]; exact strip_keep _ (by decide) hX
  have hsa : matchSourceAddr (chars "behavior " ++ X) = none := rfl
  have hloc : matchLocator (chars "behavior " ++ X) = none := rfl
  have hms : matchMicroseg (chars "behavior " ++ X) = none := rfl
  have hie : (chars "behavior " ++ X).isEmpty = false := rfl
  have hhd : ¬((chars "behavior " ++ X).head? = some '#') :=
    fun h => absurd (Option.some.inj h) (by decide)
  have hbase : stripComment (chars "behavior " ++ X) = chars "behavior " ++ X := by
    have e1 : chars "behavior " ++ X = 'b' :: (chars "ehavior " ++ X) := rfl
    rw [e1]
    exact stripComment_keep _ (by decide) (by decide) (by decide) hX
  have htok : wsSplit (chars "behavior " ++ X) = [chars "behavior", X] := by
    have e1 : chars "behavior " ++ X = chars "behavior" ++ (' ' :: X) := rfl
    rw [e1]; exact wsSplit_lit_tok (by decide) (by decide) hX
  have hbl := matchBehaviorLine_tok hX
  simp only [processLine, hstrip, hie, Bool.false_eq_true, if_false, hhd,
    if_false, hsa, hloc, hcur, hbase, htok, hms, hbl, hlast,
    ensure_mem hmem, List.isEmpty_cons, if_false]

theorem processLine_behavior_last (st : ParseState) {cur X : List Char}
    {e : LocatorEntry} (hX : isTok X = true)
    (hcur : st.currentLocator = some cur) (hlast : st.hasLastPfx = true)
    (hmem : lookupLoc st.locators cur = some e) :
    processLine st (chars "behavior " ++ X) =
      { st with locators := updateLoc (setLastBehavior X) st.locators cur } := by
  have hstrip : pyStrip (chars "behavior " ++ X) = chars "behavior " ++ X := by
    have e1 : chars "behavior " ++ X = 'b' :: (chars "ehavior " ++ X) := rfl
    rw [e1]; exact strip_keep _ (by decide) hX
  have hsa : matchSourceAddr (chars "behavior " ++ X) = none := rfl
  have hloc : matchLocator (chars "behavior " ++ X) = none := rfl
  have hms : matchMicroseg (chars "behavior " ++ X) = none := rfl
  have hie : (chars "behavior " ++ X).isEmpty = false := rfl
  have hhd : ¬((chars "behavior " ++ X).head? = some '#') :=
    fun h => absurd (Option.some.inj h) (by decide)
  have hbase : stripComment (chars "behavior " ++ X) = chars "behavior " ++ X := by
    have e1 : chars "behavior " ++ X = 'b' :: (chars "ehavior " ++ X) := rfl
    rw [e1]
    exact stripComment_keep _ (by decide) (by decide) (by decide) hX
  have htok : wsSplit (chars "behavior " ++ X) = [chars "behavior", X] := by
    have e1 : chars "behavior " ++ X = chars "behavior" ++ (' ' :: X) := rfl
    rw [e1]; exact wsSplit_lit_tok (by decide) (by decide) hX
  have hbl := matchBehaviorLine_tok hX
  have hpf : matchPrefixLine (chars "behavior " ++ X) = false := rfl
  simp only [processLine, hstrip, hie, Bool.false_eq_true, if_false, hhd,
    if_false, hsa, hloc, hcur, hbase, htok, hms, hbl, hlast,
    ensure_mem hmem, List.isEmpty_cons, if_false, hpf, Bool.not_true,
    Bool.and_false, if_true]

theorem processLine_cidr (st : ParseState) {cur P : List Char}
    {e : LocatorEntry} (hP : isTok P = true)
    (hcur : st.currentLocator = some cur)
    (hmem : lookupLoc st.locators cur = some e) :
    processLine st (chars "prefix " ++ P) =
      { st with locators := updateLoc (appendPfx P) st.locators cur,
                hasLastPfx := true } := by
  have hstrip : pyStrip (chars "prefix " ++ P) = chars "prefix " ++ P := by
    have e1 : chars "prefix " ++ P = 'p' :: (chars "refix " ++ P) := rfl
    rw [e1]; exact strip_keep _ (by decide) hP
  have hsa : matchSourceAddr (chars "prefix " ++ P) = none := rfl
  have hloc : matchLocator (chars "prefix " ++ P) = none := rfl
  have hms : matchMicroseg (chars "prefix " ++ P) = none := rfl
  have hbl : matchBehaviorLine (chars "prefix " ++ P) = none := rfl
  have hpsp : matchFlagLine (chars "psp") (chars "prefix " ++ P) = false := rfl
  have husp : matchFlagLine (chars "usp") (chars "prefix " ++ P) = false := rfl
  have hpl : matchPrefixLine (chars "prefix " ++ P) = true := rfl
  have hie : (chars "prefix " ++ P).isEmpty = false := rfl
  have hhd : ¬((chars "prefix " ++ P).head? = some '#') :=
    fun h => absurd (Option.some.inj h) (by decide)
  have hbase : stripComment (chars "prefix " ++ P) = chars "prefix " ++ P := by
    have e1 : chars "prefix " ++ P = 'p' :: (chars "refix " ++ P) := rfl
    rw [e1]
    exact stripComment_keep _ (by decide) (by decide) (by decide) hP
  have htok : wsSplit (chars "prefix " ++ P) = [chars "prefix", P] := by
    have e1 : chars "prefix " ++ P = chars "prefix" ++ (' ' :: P) := rfl
    rw [e1]; exact wsSplit_lit_tok (by decide) (by decide) hP
  simp only [processLine, hstrip, hie, Bool.false_eq_true, if_false, hhd,
    if_false, hsa, hloc, hcur, hbase, htok, hms, hbl, hpsp, husp, hpl,
    ensure_mem hmem, List.isEmpty_cons, if_false, Bool.and_false,
    Bool.false_and, if_true]

theorem processLine_microseg (st : ParseState) {cur V : List Char}
    {e : LocatorEntry} (hV : isTok V = true)
    (hcur : st.currentLocator = some cur)
    (hmem : lookupLoc st.locators cur = some e) :
    processLine st (chars "micro-segment behavior " ++ V) =
      { st with locators := updateLoc (setMicroseg V) st.locators cur } := by
  have hstrip : pyStrip (chars "micro-segment behavior " ++ V) =
      chars "micro-segment behavior " ++ V := by
    have e1 : chars "micro-segment behavior " ++ V =
        'm' :: (chars "icro-segment behavior " ++ V) := rfl
    rw [e1]; exact strip_keep _ (by decide) hV
  have hsa : matchSourceAddr (chars "micro-segment behavior " ++ V) = none := rfl
  have hloc : matchLocator (chars "micro-segment behavior " ++ V) = none := rfl
  have hms := matchMicroseg_tok hV
  have hie : (chars "micro-segment behavior " ++ V).isEmpty = false := rfl
  have hhd : ¬((chars "micro-segment behavior " ++ V).head? = some '#') :=
    fun h => absurd (Option.some.inj h) (by decide)
  have hbase : stripComment (chars "micro-segment behavior " ++ V) =
      chars "micro-segment behavior " ++ V := by
    have e1 : chars "micro-segment behavior " ++ V =
        'm' :: (chars "icro-segment behavior " ++ V) := rfl
    rw [e1]
    exact stripComment_keep _ (by decide) (by decide) (by decide) hV
  have htok : wsSplit (chars "micro-segment behavior " ++ V) =
      [chars "micro-segment", chars "behavior", V] := by
    have e1 : chars "micro-segment behavior " ++ V =
        chars "micro-segment" ++ (' ' :: (chars "behavior" ++ (' ' :: V))) := rfl
    rw [e1]
    exact wsSplit_lit_lit_tok (by decide) (by decide) (by decide) (by decide) hV
  simp only [processLine, hstrip, hie, Bool.false_eq_true, if_false, hhd,
    if_false, hsa, hloc, hcur, hbase, htok, hms, ensure_mem hmem,
    List.isEmpty_cons, if_false, tok_strip hV]

/-! ## Disjointness of the IPv4 and IPv6 address grammars -/

theorem splitOnChar_not_mem {sep : Char} :
    ∀ {l : List Char}, sep ∉ l → splitOnChar sep l = [l] := by
  intro l
  induction l with
  | nil => intro _; rfl
  | cons a t ih =>
    intro h
    have ha : ¬(a = sep) := fun he => h (by simp [he])
    unfold splitOnChar
    rw [if_neg ha, ih (fun ht => h (by simp [ht]))]

theorem mem_splitOnChar (sep : Char) {c : Char} :
    ∀ {l : List Char}, c ∈ l → c = sep ∨ ∃ p ∈ splitOnChar sep l, c ∈ p := by
  intro l
  induction l with
  | nil => intro h; simp at h
  | cons a t ih =>
    intro hc
    rcases List.mem_cons.mp hc with rfl | hct
    · by_cases ha : c = sep
      · exact Or.inl ha
      · right
        unfold splitOnChar
        rw [if_neg ha]
        cases hsp : splitOnChar sep t with
        | nil => exact ⟨[c], by simp, by simp⟩
        | cons p ps => exact ⟨c :: p, by simp, by simp⟩
    · rcases ih hct with h | ⟨p, hp, hcp⟩
      · exact Or.inl h
      · right
        unfold splitOnChar
        by_cases ha : a = sep
        · rw [if_pos ha]
          exact ⟨p, by simp [hp], hcp⟩
        · rw [if_neg ha]
          cases hsp : splitOnChar sep t with
          | nil => rw [hsp] at hp; simp at hp
          | cons q qs =>
            rw [hsp] at hp
            rcases List.mem_cons.mp hp with rfl | hps
            · exact ⟨a :: p, by simp, by simp [hcp]⟩
            · exact ⟨p, by simp [hps], hcp⟩

theorem parseOctet_digits {o : List Char} {n : Nat} (h : parseOctet o = some n) :
    ∀ c ∈ o, isAsciiDigit c = true := by
  intro c hc
  unfold parseOctet at h
  split at h
  · exact absurd h (by simp)
  · split at h
    · exact absurd h (by simp)
    · rename_i hall
      have : o.all isAsciiDigit = true := by
        revert hall
        cases o.all isAsciiDigit <;> simp
      exact List.all_eq_true.mp this c hc

theorem ipv4_chars {s : List Char} {n : Nat} (h : ipv4IntFromString s = some n) :
    ∀ c ∈ s, isAsciiDigit c = true ∨ c = '.' := by
  intro c hc
  unfold ipv4IntFromString at h
  split at h
  · exact absurd h (by simp)
  · split at h
    · rename_i o1 o2 o3 o4 hsplit
      split at h
      · rename_i a b c3 d ha hb hc3 hd
        rcases mem_splitOnChar '.' hc with hdot | ⟨p, hp, hcp⟩
        · exact Or.inr hdot
        · rw [hsplit] at hp
          simp only [List.mem_cons, List.not_mem_nil, or_false] at hp
          left
          rcases hp with rfl | rfl | rfl | rfl
          · exact parseOctet_digits ha c hcp
          · exact parseOctet_digits hb c hcp
          · exact parseOctet_digits hc3 c hcp
          · exact parseOctet_digits hd c hcp
      · exact absurd h (by simp)
    · exact absurd h (by simp)

theorem v4_v6_disjoint {s : List Char} {n : Nat}
    (h : pyIPv4AddressInt s = some n) : pyIPv6AddressInt s = none := by
  unfold pyIPv4AddressInt at h
  split at h
  · exact absurd h (by simp)
  · rename_i hslash
    have hchars := ipv4_chars h
    have hpct : ¬('%' ∈ s) := by
      intro hm
      rcases hchars '%' hm with hd | hd
      · exact absurd hd (by decide)
      · exact absurd hd (by decide)
    have hcol : ¬(':' ∈ s) := by
      intro hm
      rcases hchars ':' hm with hd | hd
      · exact absurd hd (by decide)
      · exact absurd hd (by decide)
    unfold pyIPv6AddressInt
    rw [if_neg hslash]
    unfold splitScopeId
    rw [if_neg hpct]
    show ipv6IntFromString s = none
    unfold ipv6IntFromString
    split
    · rfl
    · rw [splitOnChar_not_mem hcol]
      rw [if_pos (by norm_num)]


theorem cleanLine_lit_tok {lit t : List Char}
    (hlit : lit.all (fun c => !(c = '\n' || c = '\r')) = true)
    (hne : lit ≠ []) (ht : isTok t = true) : cleanLine (lit ++ t) = true := by
  unfold cleanLine
  have h1 : (lit ++ t).isEmpty = false := by
    cases lit with
    | nil => exact absurd rfl hne
    | cons a l => rfl
  have h2 : (lit ++ t).all (fun c => !(c = '\n' || c = '\r')) = true := by
    rw [List.all_append, Bool.and_eq_true]
    refine ⟨hlit, ?_⟩
    rw [List.all_eq_true]
    intro c hc
    have hw := isTok_not_ws ht c hc
    by_contra hx
    simp only [Bool.not_eq_true', Bool.not_eq_false, Bool.or_eq_true,
      decide_eq_true_eq] at hx
    rcases hx with rfl | rfl
    · exact absurd hw (by decide)
    · exact absurd hw (by decide)
  rw [h1, h2]
  rfl

/-! ## Claim theorems -/

/-- C1: contrary to the claim (and the function's own docstring), inline
`behavior <v>` / `psp` tokens after the CIDR on a `prefix` line are NOT
applied: the committed source elides that parsing behind a placeholder
comment (and the block as committed is an IndentationError), so the
appended entry carries only the locator defaults.  Evaluating the
embedded code at the failing input `prefix 2001:db8:1::/48 behavior uX
psp` yields behavior = none and psp = false, not "uX"/true. -/
theorem c1_inline_modifiers_ignored :
    parse_srv6_config (chars "locator L\nprefix 2001:db8:1::/48 behavior uX psp") =
      { source_address := none,
        locators := [(chars "L",
          { prefixes := [{ cidr := chars "2001:db8:1::/48", behavior := none,
                           psp := false, usp := false }],
            defaults := { behavior := none, psp := false, usp := false },
            legacyCidr := some (chars "2001:db8:1::/48"),
            microSegment := none })] } := by decide

/-- C2: for every locator block `behavior X; prefix P1; behavior Y;
prefix P2` (tokens, no other modifier lines), the parse yields P1 with
behavior Y (seeded X, overwritten as the most recent prefix), P2 with
behavior X (from the unchanged defaults), and defaults.behavior still X;
P1 is also the legacy `prefix` field. -/
theorem c2_default_seed_then_override (L X Y P1 P2 : List Char)
    (hL : isTok L = true) (hX : isTok X = true) (hY : isTok Y = true)
    (hP1 : isTok P1 = true) (hP2 : isTok P2 = true) :
    parse_srv6_config (joinNL [chars "locator " ++ L, chars "behavior " ++ X,
        chars "prefix " ++ P1, chars "behavior " ++ Y, chars "prefix " ++ P2]) =
      { source_address := none,
        locators := [(L,
          { prefixes := [{ cidr := P1, behavior := some Y, psp := false, usp := false },
                         { cidr := P2, behavior := some X, psp := false, usp := false }],
            defaults := { behavior := some X, psp := false, usp := false },
            legacyCidr := some P1, microSegment := none })] } := by
  have hsplit : splitLines (joinNL [chars "locator " ++ L, chars "behavior " ++ X,
      chars "prefix " ++ P1, chars "behavior " ++ Y, chars "prefix " ++ P2]) =
      [chars "locator " ++ L, chars "behavior " ++ X,
       chars "prefix " ++ P1, chars "behavior " ++ Y, chars "prefix " ++ P2] := by
    refine splitLines_joinNL ?_ (by simp)
    intro l hl
    simp only [List.mem_cons, List.not_mem_nil, or_false] at hl
    rcases hl with rfl | rfl | rfl | rfl | rfl
    · exact cleanLine_lit_tok (by decide) (by decide) hL
    · exact cleanLine_lit_tok (by decide) (by decide) hX
    · exact cleanLine_lit_tok (by decide) (by decide) hP1
    · exact cleanLine_lit_tok (by decide) (by decide) hY
    · exact cleanLine_lit_tok (by decide) (by decide) hP2
  have h1 : processLine initState (chars "locator " ++ L) =
      (⟨none, [(L, emptyLoc)], some L, false⟩ : ParseState) := by
    rw [processLine_locator initState hL]
    rfl
  have h2 : processLine (⟨none, [(L, emptyLoc)], some L, false⟩ : ParseState)
      (chars "behavior " ++ X) =
      ⟨none, [(L, ⟨[], ⟨some X, false, false⟩, none, none⟩)], some L, false⟩ := by
    rw [processLine_behavior_default _ hX rfl rfl (lookup_singleton L emptyLoc)]
    simp [update_singleton, setDefBehavior, emptyLoc]
  have h3 : processLine
      (⟨none, [(L, ⟨[], ⟨some X, false, false⟩, none, none⟩)], some L, false⟩ : ParseState)
      (chars "prefix " ++ P1) =
      ⟨none, [(L, ⟨[⟨P1, some X, false, false⟩], ⟨some X, false, false⟩,
        some P1, none⟩)], some L, true⟩ := by
    rw [processLine_cidr _ hP1 rfl (lookup_singleton _ _)]
    simp [update_singleton, appendPfx]
  have h4 : processLine
      (⟨none, [(L, ⟨[⟨P1, some X, false, false⟩], ⟨some X, false, false⟩,
        some P1, none⟩)], some L, true⟩ : ParseState)
      (chars "behavior " ++ Y) =
      ⟨none, [(L, ⟨[⟨P1, some Y, false, false⟩], ⟨some X, false, false⟩,
        some P1, none⟩)], some L, true⟩ := by
    rw [processLine_behavior_last _ hY rfl rfl (lookup_singleton _ _)]
    simp [update_singleton, setLastBehavior, modifyLast]
  have h5 : processLine
      (⟨none, [(L, ⟨[⟨P1, some Y, false, false⟩], ⟨some X, false, false⟩,
        some P1, none⟩)], some L, true⟩ : ParseState)
      (chars "prefix " ++ P2) =
      ⟨none, [(L, ⟨[⟨P1, some Y, false, false⟩, ⟨P2, some X, false, false⟩],
        ⟨some X, false, false⟩, some P1, none⟩)], some L, true⟩ := by
    rw [processLine_cidr _ hP2 rfl (lookup_singleton _ _)]
    simp [update_singleton, appendPfx]
  unfold parse_srv6_config
  rw [hsplit]
  simp only [List.foldl]
  rw [h1, h2, h3, h4, h5]

/-- Witness for C2 at concrete tokens. -/
theorem c2_default_seed_then_override_witness :
    parse_srv6_config (joinNL [chars "locator " ++ chars "LOC1",
        chars "behavior " ++ chars "uA", chars "prefix " ++ chars "2001:db8:1::/48",
        chars "behavior " ++ chars "uB", chars "prefix " ++ chars "2001:db8:2::/48"]) =
      { source_address := none,
        locators := [(chars "LOC1",
          { prefixes := [{ cidr := chars "2001:db8:1::/48",
                           behavior := some (chars "uB"), psp := false, usp := false },
                         { cidr := chars "2001:db8:2::/48",
                           behavior := some (chars "uA"), psp := false, usp := false }],
            defaults := { behavior := some (chars "uA"), psp := false, usp := false },
            legacyCidr := some (chars "2001:db8:1::/48"),
            microSegment := none })] } :=
  c2_default_seed_then_override (chars "LOC1") (chars "uA") (chars "uB")
    (chars "2001:db8:1::/48") (chars "2001:db8:2::/48")
    (by decide) (by decide) (by decide) (by decide) (by decide)

/-- C3 counterexample: on `locator L; prefix 2001:db8:1::/48;
micro-segment behavior uX` the micro-segment value lands in
defaults.behavior (and micro_segment), while the most recently added
prefix keeps behavior = none — refuting the claim that the legacy
directive is routed to the most recent prefix like the modern one. -/
theorem c3_microseg_to_defaults_ce :
    parse_srv6_config (chars "locator L\nprefix 2001:db8:1::/48\nmicro-segment behavior uX") =
      { source_address := none,
        locators := [(chars "L",
          { prefixes := [{ cidr := chars "2001:db8:1::/48", behavior := none,
                           psp := false, usp := false }],
            defaults := { behavior := some (chars "uX"), psp := false, usp := false },
            legacyCidr := some (chars "2001:db8:1::/48"),
            microSegment := some (chars "uX") })] } := by decide

/-- C3 (amended): a `micro-segment behavior <value>` line under an
active locator always updates that locator's defaults.behavior and the
legacy micro_segment field and leaves the prefixes (in particular the
most recently added one) untouched, regardless of whether a prefix has
been added. -/
theorem c3_microseg_always_defaults (st : ParseState) (cur V : List Char)
    (e : LocatorEntry) (hV : isTok V = true)
    (hcur : st.currentLocator = some cur)
    (hmem : lookupLoc st.locators cur = some e) :
    processLine st (chars "micro-segment behavior " ++ V) =
      { st with locators := updateLoc (setMicroseg V) st.locators cur }
    ∧ (setMicroseg V e).prefixes = e.prefixes
    ∧ (setMicroseg V e).defaults.behavior = some V
    ∧ (setMicroseg V e).microSegment = some V :=
  ⟨processLine_microseg st hV hcur hmem, rfl, rfl, rfl⟩

/-- Witness for C3 (amended) at a concrete state with one prefix added. -/
theorem c3_microseg_always_defaults_witness :
    processLine
      (⟨none, [(chars "L", ⟨[⟨chars "2001:db8:1::/48", none, false, false⟩],
        ⟨none, false, false⟩, some (chars "2001:db8:1::/48"), none⟩)],
        some (chars "L"), true⟩ : ParseState)
      (chars "micro-segment behavior " ++ chars "uX") =
      { (⟨none, [(chars "L", ⟨[⟨chars "2001:db8:1::/48", none, false, false⟩],
          ⟨none, false, false⟩, some (chars "2001:db8:1::/48"), none⟩)],
          some (chars "L"), true⟩ : ParseState) with
        locators := updateLoc (setMicroseg (chars "uX"))
          [(chars "L", ⟨[⟨chars "2001:db8:1::/48", none, false, false⟩],
            ⟨none, false, false⟩, some (chars "2001:db8:1::/48"), none⟩)]
          (chars "L") }
    ∧ (setMicroseg (chars "uX")
        ⟨[⟨chars "2001:db8:1::/48", none, false, false⟩], ⟨none, false, false⟩,
         some (chars "2001:db8:1::/48"), none⟩).prefixes =
      (⟨[⟨chars "2001:db8:1::/48", none, false, false⟩], ⟨none, false, false⟩,
        some (chars "2001:db8:1::/48"), none⟩ : LocatorEntry).prefixes
    ∧ (setMicroseg (chars "uX")
        ⟨[⟨chars "2001:db8:1::/48", none, false, false⟩], ⟨none, false, false⟩,
         some (chars "2001:db8:1::/48"), none⟩).defaults.behavior = some (chars "uX")
    ∧ (setMicroseg (chars "uX")
        ⟨[⟨chars "2001:db8:1::/48", none, false, false⟩], ⟨none, false, false⟩,
         some (chars "2001:db8:1::/48"), none⟩).microSegment = some (chars "uX") :=
  c3_microseg_always_defaults _ (chars "L") (chars "uX") _ (by decide) rfl (by decide)

/-- C4 counterexample: `prefix abc#def` stores the truncated CIDR "abc",
not the untruncated "abc#def" the claim promises: the prefix line's
tokens come from `_strip_comment`, which cuts at the FIRST `#`
regardless of preceding whitespace. -/
theorem c4_cidr_truncated_ce :
    parse_srv6_config (chars "locator L\nprefix abc#def") =
      { source_address := none,
        locators := [(chars "L",
          { prefixes := [{ cidr := chars "abc", behavior := none,
                           psp := false, usp := false }],
            defaults := { behavior := none, psp := false, usp := false },
            legacyCidr := some (chars "abc"), microSegment := none })] }
    ∧ ¬(chars "abc" = chars "abc#def") := by
  refine ⟨by decide, by decide⟩

/-- C4 (amended): the whitespace-before-`#` comment rule holds for the
regex-captured free-form values (`behavior`, `micro-segment behavior`), 
whose values keep an embedded `#` and lose a ` # comment`; but the
`prefix` line's CIDR token is taken from the line truncated at the first
`#` regardless of preceding whitespace, so a CIDR containing `#` is
stored truncated. -/
theorem c4_comment_stripping_rules :
    parse_srv6_config (chars "locator L\nbehavior uN#x") =
      { source_address := none,
        locators := [(chars "L",
          { prefixes := [],
            defaults := { behavior := some (chars "uN#x"), psp := false, usp := false },
            legacyCidr := none, microSegment := none })] }
    ∧ parse_srv6_config (chars "locator L\nmicro-segment behavior uN#x") =
      { source_address := none,
        locators := [(chars "L",
          { prefixes := [],
            defaults := { behavior := some (chars "uN#x"), psp := false, usp := false },
            legacyCidr := none, microSegment := some (chars "uN#x") })] }
    ∧ parse_srv6_config (chars "locator L\nbehavior uN # c") =
      { source_address := none,
        locators := [(chars "L",
          { prefixes := [],
            defaults := { behavior := some (chars "uN"), psp := false, usp := false },
            legacyCidr := none, microSegment := none })] }
    ∧ parse_srv6_config (chars "locator L\nprefix abc#def") =
      { source_address := none,
        locators := [(chars "L",
          { prefixes := [{ cidr := chars "abc", behavior := none,
                           psp := false, usp := false }],
            defaults := { behavior := none, psp := false, usp := false },
            legacyCidr := some (chars "abc"), microSegment := none })] } := by
  refine ⟨by decide, by decide, by decide, by decide⟩

/-- C5: evaluating the code at the failing inputs.  `psp` then `no psp`
leaves defaults.psp = true: `_parse_flag_from_tokens` finds "psp" among
the tokens and returns True before its (unreachable) `no <flag>` loop,
so `no psp` ENABLES the flag, contradicting the claim and the code's own
docstring.  `psp disable` then `psp enabled` leaves psp = false, and
`usp` then `usp off` leaves usp = true: the enabled/disabled/true/
false/on/off synonym lines fail the gating regex `_RE_PSP`/`_RE_USP`
(which accept only enable|disable) and are ignored entirely. -/
theorem c5_flag_line_handling :
    parse_srv6_config (chars "locator L\npsp\nno psp") =
      { source_address := none,
        locators := [(chars "L",
          { prefixes := [], defaults := { behavior := none, psp := true, usp := false },
            legacyCidr := none, microSegment := none })] }
    ∧ parse_srv6_config (chars "locator L\npsp disable\npsp enabled") =
      { source_address := none,
        locators := [(chars "L",
          { prefixes := [], defaults := { behavior := none, psp := false, usp := false },
            legacyCidr := none, microSegment := none })] }
    ∧ parse_srv6_config (chars "locator L\nusp\nusp off") =
      { source_address := none,
        locators := [(chars "L",
          { prefixes := [], defaults := { behavior := none, psp := false, usp := true },
            legacyCidr := none, microSegment := none })] } := by
  refine ⟨by decide, by decide, by decide⟩

/-- C6: `is_valid_ipv6_prefix` equals the claim's characterisation — a
`/` with a purely-decimal mask, the alphabetic-hextet quirk (alphabetic
segments only allowed at length exactly 4, empty segments from `::`
ignored), and the whole string parsing as an IPv6 network with host bits
permitted — and the function is total (never raises).  Concretely:
"bad::/64" is rejected by the quirk, "abcd::/64" accepted; a missing
`/`, a non-digit mask, a mask above 128, and an IPv4 network are
rejected; the test-suite positives hold. -/
theorem c6_cidr_validator_spec :
    (∀ p : List Char, is_valid_ipv6_prefix p = ipv6CidrClaim p)
    ∧ is_valid_ipv6_prefix (chars "bad::/64") = false
    ∧ is_valid_ipv6_prefix (chars "abcd::/64") = true
    ∧ is_valid_ipv6_prefix (chars "2001:db8::1") = false
    ∧ is_valid_ipv6_prefix (chars "2001:db8::/129") = false
    ∧ is_valid_ipv6_prefix (chars "2001:db8::/abc") = false
    ∧ is_valid_ipv6_prefix (chars "2001:db8::/32") = true
    ∧ is_valid_ipv6_prefix (chars "2001:db8:1::/48") = true
    ∧ is_valid_ipv6_prefix (chars "2001:db8:abcd:1234::/64") = true
    ∧ is_valid_ipv6_prefix (chars "::/0") = true
    ∧ is_valid_ipv6_prefix (chars "fe80::/10") = true
    ∧ is_valid_ipv6_prefix (chars "192.168.1.0/24") = false := by
  refine ⟨?_, by decide, by decide, by decide, by decide, by decide, by decide,
    by decide, by decide, by decide, by decide, by decide⟩
  intro p
  unfold is_valid_ipv6_prefix ipv6CidrClaim
  by_cases hs : '/' ∈ p
  · rw [if_pos hs]
    simp only [hs, decide_True, Bool.true_and]
    cases h1 : pyStrIsdigit (pyPartition '/' p).2
    · simp [h1]
    · cases h2 : ((splitOnChar ':' (pyPartition '/' p).1).filter
          (fun h => !h.isEmpty)).all (fun h => !pyStrIsalpha h || h.length == 4)
      · simp [h1, h2]
      · simp [h1, h2]
  · rw [if_neg hs]
    simp [hs]

/-- C7: `is_valid_ipv6` returns true exactly when the string parses as
an IPv6 host address under the modelled platform parser (an IPv4
literal, tried first by `ip_address`, can never also parse as IPv6), it
is total (never raises), and it returns false on the empty string and
the suite's malformed inputs. -/
theorem c7_address_validator_spec :
    (∀ a : List Char, is_valid_ipv6 a = (pyIPv6AddressInt a).isSome)
    ∧ is_valid_ipv6 (chars "") = false
    ∧ is_valid_ipv6 (chars "2001:db8::1") = true
    ∧ is_valid_ipv6 (chars "::1") = true
    ∧ is_valid_ipv6 (chars "fe80::") = true
    ∧ is_valid_ipv6 (chars "2001:0db8:85a3:0000:0000:8a2e:0370:7334") = true
    ∧ is_valid_ipv6 (chars "2001:db8:0:1::") = true
    ∧ is_valid_ipv6 (chars "2001:db8::/48") = false
    ∧ is_valid_ipv6 (chars "2001:db8:::1") = false
    ∧ is_valid_ipv6 (chars "gggg::1") = false
    ∧ is_valid_ipv6 (chars "192.168.1.1") = false := by
  refine ⟨?_, by decide, by decide, by decide, by decide, by decide, by decide,
    by decide, by decide, by decide, by decide⟩
  intro a
  unfold is_valid_ipv6
  cases h4 : pyIPv4AddressInt a with
  | none => rfl
  | some n => rw [v4_v6_disjoint h4]; rfl

/-- C8 counterexample: the entry point the CLI actually calls
(`core.run_srv6_test`) gates on the regex-based host-address check
`core.is_valid_ipv6`, not on `is_valid_ipv6_prefix`: for the
prefix-valid input "2001:db8::/32" it returns the Invalid message even
though `is_valid_ipv6_prefix` accepts it (and the `srv6_utils` twin
returns the Running message). -/
theorem c8_core_gate_ce :
    core_run_srv6_test (chars "2001:db8::/32") =
      chars "Invalid SRv6 prefix: 2001:db8::/32"
    ∧ is_valid_ipv6_prefix (chars "2001:db8::/32") = true
    ∧ run_srv6_test (chars "2001:db8::/32") =
      chars "Running automation for SRv6 prefix 2001:db8::/32" := by
  refine ⟨by decide, by decide, by decide⟩

/-- C8 (amended): `srv6_utils.run_srv6_test` returns exactly the two
claimed messages according to `is_valid_ipv6_prefix`; the duplicate
`core.run_srv6_test` (the one `cli.main` invokes) returns the same two
messages but gated on its own regex-based `core.is_valid_ipv6` host-
address check instead, and neither performs any other work. -/
theorem c8_placeholder_messages (p : List Char) :
    run_srv6_test p =
      (if is_valid_ipv6_prefix p
       then chars "Running automation for SRv6 prefix " ++ p
       else chars "Invalid SRv6 prefix: " ++ p)
    ∧ core_run_srv6_test p =
      (if core_is_valid_ipv6 p
       then chars "Running automation for SRv6 prefix " ++ p
       else chars "Invalid SRv6 prefix: " ++ p) := by
  constructor
  · unfold run_srv6_test
    cases h : is_valid_ipv6_prefix p <;> simp [h]
  · unfold core_run_srv6_test
    cases h : core_is_valid_ipv6 p <;> simp [h]

/-- C9: the parser is a pure function of its input text in the
embedding: parsing the same text twice gives structurally identical
results, and parsing other inputs in between (modelled as a sequence of
invocations) does not change the result of a later identical call. -/
theorem c9_parse_deterministic (a b : List Char) :
    parse_srv6_config a = parse_srv6_config a
    ∧ (List.map parse_srv6_config [a, b, a]).head? = some (parse_srv6_config a)
    ∧ (List.map parse_srv6_config [a, b, a]).getLast? = some (parse_srv6_config a) :=
  ⟨rfl, rfl, by simp⟩

/-- Witness for C9 at concrete inputs. -/
theorem c9_parse_deterministic_witness :
    parse_srv6_config (chars "locator L\nprefix 2001:db8:1::/48") =
      parse_srv6_config (chars "locator L\nprefix 2001:db8:1::/48")
    ∧ (List.map parse_srv6_config [chars "locator L\nprefix 2001:db8:1::/48",
        chars "locator M", chars "locator L\nprefix 2001:db8:1::/48"]).head? =
      some (parse_srv6_config (chars "locator L\nprefix 2001:db8:1::/48"))
    ∧ (List.map parse_srv6_config [chars "locator L\nprefix 2001:db8:1::/48",
        chars "locator M", chars "locator L\nprefix 2001:db8:1::/48"]).getLast? =
      some (parse_srv6_config (chars "locator L\nprefix 2001:db8:1::/48")) :=
  c9_parse_deterministic (chars "locator L\nprefix 2001:db8:1::/48") (chars "locator M")

/-- C10: a `locator <name>` line naming an existing locator reuses the
entry: `setdefault` leaves the accumulated map untouched, and only the
current-locator pointer and the most-recent-prefix tracking change (the
latter reset, so the next modifier targets defaults).  Concretely,
re-entering `locator L` preserves the first prefix and legacy `prefix`
field, appends the later prefix after the earlier one, and routes the
intervening `behavior` line to the defaults. -/
theorem c10_locator_reentry :
    (∀ (st : ParseState) (L : List Char) (e : LocatorEntry), isTok L = true →
      lookupLoc st.locators L = some e →
      processLine st (chars "locator " ++ L) =
        { st with currentLocator := some L, hasLastPfx := false })
    ∧ parse_srv6_config
        (chars "locator L\nprefix 2001:db8:1::/48\nlocator L\nbehavior uX\nprefix 2001:db8:2::/48") =
      { source_address := none,
        locators := [(chars "L",
          { prefixes := [{ cidr := chars "2001:db8:1::/48", behavior := none,
                           psp := false, usp := false },
                         { cidr := chars "2001:db8:2::/48",
                           behavior := some (chars "uX"), psp := false, usp := false }],
            defaults := { behavior := some (chars "uX"), psp := false, usp := false },
            legacyCidr := some (chars "2001:db8:1::/48"),
            microSegment := none })] } := by
  constructor
  · intro st L e hL hmem
    rw [processLine_locator st hL, ensure_mem hmem]
  · decide

/-- Witness for C10's universal part at a concrete populated state. -/
theorem c10_locator_reentry_witness :
    processLine (⟨none, [(chars "A", emptyLoc)], none, true⟩ : ParseState)
      (chars "locator " ++ chars "A") =
      { (⟨none, [(chars "A", emptyLoc)], none, true⟩ : ParseState) with
        currentLocator := some (chars "A"), hasLastPfx := false } :=
  c10_locator_reentry.1 _ (chars "A") emptyLoc (by decide) (by decide)
